import Mathlib

/-!
Verification of the status/diff subsystem of a data-versioning tool.

The development shallowly embeds `dvc/repo/data.py` and `dvc/repo/imp_url.py`:
Python dicts with string keys become insertion-ordered association lists,
exceptions become an error sum type threaded through `Except`, and the
external collaborators (the tree-diff primitive, the SCM backend, the
revision iterator) are passed in as explicit data.  Paths are modelled with
the POSIX separator, so `os.sep = "/"` and the Windows-only untracked-path
conversion branch is the identity.
-/

namespace DvcData

/-- Change kinds produced by the external tree-diff primitive
(`dvc_data.index.diff`): ADD, DELETE, MODIFY, UNCHANGED, UNKNOWN. -/
inductive ChangeTyp where
  | add
  | delete
  | modify
  | unchanged
  | unknown
  deriving DecidableEq, Repr

/-- Metadata attached to an index entry; only the directory flag matters here. -/
structure Meta where
  isdir : Bool
  deriving DecidableEq, Repr

/-- A `DataIndexEntry`: an optional content hash (`none` models both a missing
`hash_info` and a `hash_info` with no value, which are equally falsy in the
source), optional metadata, and the set of hashes its object store holds
(`odb.exists`). -/
structure Entry where
  hash_info : Option String
  meta : Option Meta
  odb : List String
  deriving DecidableEq, Repr

/-- `odb.exists(hash)` for an entry's object store. -/
def Entry.odbExists (e : Entry) (h : String) : Bool :=
  e.odb.contains h

/-- A change record from the tree-diff primitive: key (path components),
kind, and the optional `old`/`new` entries. -/
structure Change where
  key : List String
  typ : ChangeTyp
  old : Option Entry
  new : Option Entry
  deriving DecidableEq, Repr

/-- `_adapt_typ`: rename ADD/DELETE/MODIFY, pass the rest through under their
literal names. -/
def _adapt_typ (typ : ChangeTyp) : String :=
  match typ with
  | .modify => "modified"
  | .add => "added"
  | .delete => "deleted"
  | .unchanged => "unchanged"
  | .unknown => "unknown"

/-- Truthiness of an optional entry's optional field, as used by
`change.new and change.new.meta`. -/
def metaOf (e : Option Entry) : Option Meta :=
  match e with
  | none => none
  | some e => e.meta

/-- `_adapt_path`: join the key with the OS separator, appending a trailing
separator when the entry (preferring `new`, falling back to `old`) is a
directory. -/
def _adapt_path (change : Change) : String :=
  let isdir :=
    match metaOf change.new with
    | some m => m.isdir
    | none =>
      match metaOf change.old with
      | some m => m.isdir
      | none => false
  let key := if isdir then change.key ++ [""] else change.key
  String.intercalate "/" key

/-- The incrementally assembled change-kind mapping: a Python dict from kind
name to path list, modelled as an insertion-ordered association list with
unique keys. -/
abbrev Buckets := List (String × List String)

/-- Python-dict insertion: append to the list under an existing key, or add the
key at the end (`_add_change`'s `ret` update). -/
def addChange (ret : Buckets) (typ : String) (path : String) : Buckets :=
  match ret with
  | [] => [(typ, [path])]
  | (k, v) :: rest =>
    if k = typ then (k, v ++ [path]) :: rest else (k, v) :: addChange rest typ path

/-- Dict lookup with a `[]` default (`ret.get(k, [])` / `ret.pop(k, [])`'s value). -/
def bucket (ret : Buckets) (k : String) : List String :=
  match ret with
  | [] => []
  | (k', v) :: rest => if k' = k then v else bucket rest k

/-- `k in ret` for the mapping. -/
def hasKey (ret : Buckets) (k : String) : Bool :=
  match ret with
  | [] => false
  | (k', _) :: rest => k' = k || hasKey rest k

/-- Truthiness of `change.old and change.old.hash_info and not
change.old.odb.exists(change.old.hash_info.value)`. -/
def oldHashMissing (c : Change) : Bool :=
  match c.old with
  | none => false
  | some e =>
    match e.hash_info with
    | none => false
    | some h => !(e.odbExists h)

/-- Suppression rule 1: UNCHANGED with both sides present and both hash-less. -/
def suppressedUnchanged (c : Change) : Bool :=
  c.typ = ChangeTyp.unchanged && c.old.isSome && c.new.isSome
    && (metaHash c.old).isNone && (metaHash c.new).isNone
where
  metaHash (e : Option Entry) : Option String :=
    match e with
    | none => none
    | some e => e.hash_info

/-- Suppression rule 2: UNKNOWN with no `new` entry. -/
def suppressedUnknown (c : Change) : Bool :=
  c.typ = ChangeTyp.unknown && c.new.isNone

/-- The body of `_diff`'s loop for one change record: the two suppression
rules, the missing-cache emission, then the normal classification. -/
def procChange (with_missing : Bool) (ret : Buckets) (c : Change) : Buckets :=
  if suppressedUnchanged c then ret
  else if suppressedUnknown c then ret
  else
    addChange
      (if with_missing && oldHashMissing c then
        addChange ret "not_in_cache" (_adapt_path c)
      else ret)
      (_adapt_typ c.typ) (_adapt_path c)

/-- `_diff`, parametrised over the change sequence the external tree-diff
primitive yields for the two snapshots (the primitive itself is an external
collaborator; `granular` only toggles its `shallow` flag and so is absorbed
into the change list). -/
def _diff (changes : List Change) (with_missing : Bool) : Buckets :=
  changes.foldl (procChange with_missing) []

/-- A snapshot for the equal-snapshots scenario: entries keyed by path
component sequences. -/
abbrev Snapshot := List (List String × Entry)

/-- Modelled from the spec: the external tree-diff primitive
(`dvc_data.index.diff`, not part of this repository) applied to two equal
snapshots with `with_unchanged=true` — it reports one UNCHANGED record per
entry, carrying the entry on both sides. -/
def diffPrimEqual (s : Snapshot) : List Change :=
  s.map (fun ke => { key := ke.1, typ := .unchanged, old := some ke.2, new := some ke.2 })

/-- The rendered path of a snapshot entry, as `_adapt_path` renders its
UNCHANGED self-record. -/
def entryPath (ke : List String × Entry) : String :=
  _adapt_path { key := ke.1, typ := .unchanged, old := some ke.2, new := some ke.2 }

/-- The exception classes the subsystem distinguishes: the SCM error class
(both `dvc.scm.SCMError` and the backend `scmrepo` error it wraps — the
"repository has no commits yet" condition surfaces as this class), the
`NoSCMError` raised when no backend is configured, Python's
`UnboundLocalError`, and any other exception. -/
inductive PyErr where
  | scmError
  | noSCMError
  | unboundLocalError
  | otherError
  deriving DecidableEq, Repr

/-- The SCM backend interface used by `_git_info`: `get_rev` (which fails with
the SCM error class on an empty repository) and `status` returning the
staged/unstaged/untracked partitions. -/
structure GitBackend where
  get_rev : Except PyErr String
  statusQ : String → Buckets × Buckets × List String


/-- `repo.scm`: either `NoSCM` or a Git backend. -/
inductive SCMHandle where
  | noSCM
  | git (b : GitBackend)

/-- The `GitInfo` TypedDict (`total=False`): every field may be absent.
`NoSCM` yields the record with all fields absent. -/
structure GitInfo where
  staged : Option Buckets := none
  unstaged : Option Buckets := none
  untracked : Option (List String) := none
  is_empty : Option Bool := none
  is_dirty : Option Bool := none
  deriving DecidableEq, Repr

/-- `_git_info`: empty record for `NoSCM`; otherwise probe `get_rev`,
converting only the SCM error class into `is_empty=true` (anything else
propagates), then query the status partitions.  The POSIX model makes the
`os.name == "nt"` separator conversion the identity. -/
def _git_info (scm : SCMHandle) (untracked_files : String) : Except PyErr GitInfo :=
  match scm with
  | .noSCM => .ok {}
  | .git b =>
    let empty? : Except PyErr Bool :=
      match b.get_rev with
      | .error .scmError => .ok true
      | .error e => .error e
      | .ok _ => .ok false
    match empty? with
    | .error e => .error e
    | .ok empty_repo =>
      let (staged, unstaged, untracked) := b.statusQ untracked_files
      .ok { staged := some staged
            unstaged := some unstaged
            untracked := some untracked
            is_empty := some empty_repo
            is_dirty := some (!staged.isEmpty || !unstaged.isEmpty || !untracked.isEmpty) }

/-- `_diff_head_to_index`, parametrised over the revision labels the brancher
yields for `[head]` and, for each concrete revision, the change sequence the
tree-diff primitive produces between that revision's index and the current
one.  `head_index` is the loop variable: assigned only on non-"workspace"
revisions, so if none occurs the subsequent read raises `UnboundLocalError`. -/
def _diff_head_to_index (revs : List String) (changesOf : String → List Change) :
    Except PyErr Buckets :=
  let head_rev := revs.foldl (fun acc rev => if rev = "workspace" then acc else some rev) none
  match head_rev with
  | none => .error .unboundLocalError
  | some rev => .ok (_diff (changesOf rev) false)

/-- Split a character list at the POSIX separator. -/
def splitSlash (cs : List Char) (cur : List Char) : List String :=
  match cs with
  | [] => [String.mk cur.reverse]
  | c :: rest =>
    if c = '/' then String.mk cur.reverse :: splitSlash rest []
    else splitSlash rest (c :: cur)

/-- Path components: split on the POSIX separator, dropping empty components
(as `posixpath` normalisation does for repeated separators). -/
def pathComponents (p : String) : List String :=
  (splitSlash p.data []).filter (fun c => c ≠ "")

/-- Whether the path is absolute (leading POSIX separator). -/
def isAbsolute (p : String) : Bool :=
  match p.data with
  | c :: _ => c = '/'
  | [] => false

/-- Component list after `abspath`: absolute paths stand on their own;
relative paths are anchored at the process's current directory, the same
anchor for every relative path of one call. -/
def absComponents (p : String) : List String :=
  if isAbsolute p then pathComponents p else "%cwd%" :: pathComponents p

/-- Length of the longest common prefix of two component lists. -/
def commonLen : List String → List String → Nat
  | a :: as, b :: bs => if a = b then commonLen as bs + 1 else 0
  | _, _ => 0

/-- `posixpath.relpath(path, start)`: strip the common prefix, climb with
`..`, descend with the remainder; the empty result is the current directory
`"."`. -/
def relpath (path start : String) : String :=
  let pl := absComponents path
  let sl := absComponents start
  let i := commonLen pl sl
  let relList := List.replicate (sl.length - i) ".." ++ pl.drop i
  if relList.isEmpty then "." else String.intercalate "/" relList

/-- `str.rstrip("/")`. -/
def rstripSlash (s : String) : String :=
  String.mk (s.data.reverse.dropWhile (fun c => c = '/')).reverse

/-- `str.startswith(pre)`: character-level prefix test. -/
def strStarts (s pre : String) : Bool :=
  List.isPrefixOf pre.data s.data

/-- `s[n:]`: drop the first `n` characters. -/
def strDrop (s : String) (n : Nat) : String :=
  String.mk (s.data.drop n)

/-- `_transform_git_paths_to_dvc`: rebase SCM-root-relative paths onto the
DVC root (dropping paths outside it), then re-express them relative to the
current directory.  `root_dir` is the DVC repo root, `scm_root` the SCM root
and `cwd` the current directory, all absolute. -/
def _transform_git_paths_to_dvc (root_dir scm_root cwd : String) (files : List String) :
    List String :=
  let rel := rstripSlash (relpath root_dir scm_root)
  let files1 :=
    if rel ≠ "." ∧ rel ≠ "" then
      let pre := rel ++ "/"
      (files.filter (fun f => strStarts f pre)).map (fun f => strDrop f pre.length)
    else files
  let start := relpath cwd root_dir
  if start = "." ∨ start = "" then files1
  else files1.map (fun f => relpath f start)

/-- `dict.pop(k, default)`'s removal: drop the key from the mapping. -/
def removeKey (ret : Buckets) (k : String) : Buckets :=
  match ret with
  | [] => []
  | (k', v) :: rest => if k' = k then removeKey rest k else (k', v) :: removeKey rest k

/-- Python set intersection realised on lists: membership in both. -/
def setInter (a b : List String) : List String :=
  a.filter (fun x => b.contains x)

/-- The final `Status` report. -/
structure StatusR where
  not_in_cache : List String
  committed : Buckets
  uncommitted : Buckets
  untracked : List String
  unchanged : List String
  git : GitInfo
  deriving DecidableEq, Repr

/-- `status`, parametrised over the uncommitted diff that
`_diff_index_to_wtree` produced (the workspace snapshot builder is external)
and the outcome of `_diff_head_to_index` (its brancher may raise).  `SCMError`
and `NoSCMError` from the committed diff are recovered as an empty mapping;
`unchanged` is the uncommitted unchanged set, intersected with the committed
one when that diff succeeded.  The Python `list(set(...))` order is modelled
by the filter order. -/
def status (root_dir scm_root cwd : String) (uncommitted_diff : Buckets)
    (committedRes : Except PyErr Buckets) (scm : SCMHandle) (untracked_files : String) :
    Except PyErr StatusR :=
  let not_in_cache := bucket uncommitted_diff "not_in_cache"
  let u1 := removeKey uncommitted_diff "not_in_cache"
  let unchanged0 := bucket u1 "unchanged"
  let u2 := removeKey u1 "unchanged"
  let step : Except PyErr (Buckets × List String) :=
    match committedRes with
    | .error .scmError => .ok ([], unchanged0)
    | .error .noSCMError => .ok ([], unchanged0)
    | .error e => .error e
    | .ok cd => .ok (removeKey cd "unchanged", setInter unchanged0 (bucket cd "unchanged"))
  match step with
  | .error e => .error e
  | .ok (committed_diff, unchanged) =>
    match _git_info scm untracked_files with
    | .error e => .error e
    | .ok git_info =>
      let untracked := git_info.untracked.getD []
      let untracked := _transform_git_paths_to_dvc root_dir scm_root cwd untracked
      .ok { not_in_cache := not_in_cache
            committed := committed_diff
            uncommitted := u2
            untracked := untracked
            unchanged := unchanged
            git := git_info }

end DvcData

namespace DvcImpUrl

open DvcData (PyErr)

/-- The observable steps `imp_url` performs, in order: the pure path
resolution helpers, stage creation, the graph check, and the three mutually
exclusive execution modes, followed by the final dump. -/
inductive ImpAction where
  | resolveOutput
  | resolvePaths
  | stageCreate
  | checkGraph
  | ignoreOuts
  | transferToRemote
  | stageRun
  | stageDump
  deriving DecidableEq, Repr

/-- The exceptions `imp_url` raises itself: `InvalidArgumentError` for the
flag checks and the re-raised `OutputDuplicationError` from the graph check. -/
inductive ImpErr where
  | invalidArgument
  | outputDuplication
  deriving DecidableEq, Repr

/-- The arguments of `imp_url` that steer its control flow, plus the one
external outcome it consults (whether `check_graph` finds a duplicate
output). -/
structure ImpArgs where
  no_download : Bool := false
  no_exec : Bool := false
  remote : Option String := none
  to_remote : Bool := false
  graphDuplicates : Bool := false

/-- Python truthiness of the `remote` argument: `None` and `""` are falsy. -/
def truthyStr (o : Option String) : Bool :=
  match o with
  | none => false
  | some s => !s.isEmpty

/-- `imp_url` as a trace semantics: the list of actions performed before
returning or raising, and the exception if one was raised.  The flag checks
run right after the path-resolution helpers, before any stage exists. -/
def imp_url (a : ImpArgs) : List ImpAction × Option ImpErr :=
  let acts : List ImpAction := [.resolveOutput, .resolvePaths]
  if a.to_remote && (a.no_exec || a.no_download) then
    (acts, some .invalidArgument)
  else if !a.to_remote && truthyStr a.remote then
    (acts, some .invalidArgument)
  else
    let acts := acts ++ [.stageCreate, .checkGraph]
    if a.graphDuplicates then (acts, some .outputDuplication)
    else
      let acts := acts ++
        (if a.no_exec then [.ignoreOuts]
         else if a.to_remote then [.transferToRemote]
         else [.stageRun])
      (acts ++ [.stageDump], none)

/-- A flag combination the argument checks reject: `to_remote` with
`no_exec` (concrete instance for witnesses). -/
def badArgs : ImpArgs :=
  { no_exec := true, to_remote := true }

end DvcImpUrl

namespace DvcData

/-- Fold step of the equal-snapshot classification: what `procChange` does to
each self-record (suppress the hash-less ones, file the rest under
"unchanged"). -/
def unchangedStep (a : Buckets) (ke : List String × Entry) : Buckets :=
  if ke.2.hash_info.isSome then addChange a "unchanged" (entryPath ke) else a

/-- The Path Translator as the spec states it, step by step: compute the
relative prefix, strip it and discard outside paths when it is non-trivial,
then re-express the survivors relative to the current directory unless the
current directory is the data-repo root. -/
def specPathTranslate (root_dir scm_root cwd : String) (files : List String) :
    List String :=
  let rel := rstripSlash (relpath root_dir scm_root)
  let pre := rel ++ "/"
  let files1 :=
    if rel = "." ∨ rel = "" then files
    else (files.filter (fun f => strStarts f pre)).map (fun f => strDrop f pre.length)
  let start := relpath cwd root_dir
  if start = "." ∨ start = "" then files1
  else files1.map (fun f => relpath f start)

/-- A revision-to-changes map with no changes anywhere (concrete instance for
witnesses). -/
def noChanges : String → List Change := fun _ => []

/-- A one-entry snapshot whose entry carries no content hash (a hash-less
directory marker). -/
def snapHashless : Snapshot :=
  [(["d"], { hash_info := none, meta := some ⟨true⟩, odb := [] })]

/-- A one-entry snapshot whose entry carries a content hash. -/
def snapHashed : Snapshot :=
  [(["f"], { hash_info := some "h", meta := some ⟨false⟩, odb := ["h"] })]

/-- A modified record whose `old` entry's hash is absent from its object
store. -/
def changeMissing : Change :=
  { key := ["f"], typ := .modify,
    old := some { hash_info := some "h0", meta := some ⟨false⟩, odb := [] },
    new := some { hash_info := some "h1", meta := some ⟨false⟩, odb := [] } }

/-- A backend whose revision resolution reports the no-commits SCM error
(concrete instance for witnesses). -/
def emptyBackend : GitBackend :=
  { get_rev := .error .scmError, statusQ := fun _ => ([], [], []) }

/-- The `GitInfo` record with every field absent. -/
def emptyGitInfo : GitInfo :=
  { staged := none, unstaged := none, untracked := none,
    is_empty := none, is_dirty := none }


theorem bucket_addChange (ret : Buckets) (t p k : String) :
    bucket (addChange ret t p) k =
      if k = t then bucket ret k ++ [p] else bucket ret k := by
  induction ret with
  | nil =>
    by_cases h : k = t
    · subst h; simp [addChange, bucket]
    · have h' : ¬ t = k := fun hh => h hh.symm
      simp [addChange, bucket, h, h']
  | cons hd rest ih =>
    obtain ⟨a, v⟩ := hd
    simp only [addChange]
    by_cases h1 : a = t
    · simp only [if_pos h1]
      by_cases h2 : a = k
      · have hkt : k = t := h2.symm.trans h1
        simp [bucket, h2, hkt]
      · have hkt : ¬ k = t := fun hh => h2 (h1.trans hh.symm)
        simp [bucket, h2, hkt]
    · simp only [if_neg h1]
      by_cases h2 : a = k
      · have hkt : ¬ k = t := fun hh => h1 (h2.trans hh)
        simp [bucket, h2, hkt]
      · simp [bucket, h2, ih]

theorem hasKey_addChange (ret : Buckets) (t p k : String) :
    hasKey (addChange ret t p) k = (decide (k = t) || hasKey ret k) := by
  induction ret with
  | nil =>
    by_cases h : k = t
    · subst h; simp [addChange, hasKey]
    · have h' : ¬ t = k := fun hh => h hh.symm
      simp [addChange, hasKey, h, h']
  | cons hd rest ih =>
    obtain ⟨a, v⟩ := hd
    simp only [addChange]
    by_cases h1 : a = t
    · simp only [if_pos h1]
      by_cases h2 : a = k
      · simp [hasKey, h2]
      · have hkt : ¬ k = t := fun hh => h2 (h1.trans hh.symm)
        simp [hasKey, h2, hkt, ih]
    · simp only [if_neg h1]
      simp only [hasKey, ih]
      by_cases h2 : a = k
      · simp [h2]
      · simp [h2]

theorem hasKey_addChange_ne (ret : Buckets) (t p k : String) (h : k ≠ t) :
    hasKey (addChange ret t p) k = hasKey ret k := by
  simp [hasKey_addChange, h]

theorem bucket_removeKey (ret : Buckets) (k k' : String) :
    bucket (removeKey ret k) k' = if k' = k then [] else bucket ret k' := by
  induction ret with
  | nil => simp [removeKey, bucket]
  | cons hd rest ih =>
    obtain ⟨a, v⟩ := hd
    simp only [removeKey]
    by_cases h1 : a = k
    · simp only [if_pos h1, ih]
      by_cases h2 : k' = k
      · simp [h2]
      · have h3 : ¬ a = k' := fun hh => h2 (hh.symm.trans h1)
        simp [bucket, h2, h3]
    · simp only [if_neg h1]
      by_cases h2 : a = k'
      · have h3 : ¬ k' = k := fun hh => h1 (h2.trans hh)
        simp [bucket, h2, h3]
      · simp [bucket, h2, ih]

theorem hasKey_removeKey_self (ret : Buckets) (k : String) :
    hasKey (removeKey ret k) k = false := by
  induction ret with
  | nil => simp [removeKey, hasKey]
  | cons hd rest ih =>
    obtain ⟨a, v⟩ := hd
    simp only [removeKey]
    by_cases h1 : a = k
    · simp [h1, ih]
    · simp [hasKey, h1, ih]

theorem adapt_typ_ne_nic (t : ChangeTyp) : ¬ ("not_in_cache" = _adapt_typ t) := by
  cases t <;> simp [_adapt_typ]

theorem mem_bucket_addChange (ret : Buckets) (t p k x : String) (hx : x ∈ bucket ret k) :
    x ∈ bucket (addChange ret t p) k := by
  rw [bucket_addChange]
  split
  · exact List.mem_append_left _ hx
  · exact hx

theorem mem_bucket_procChange (w : Bool) (ret : Buckets) (c : Change) (k x : String)
    (hx : x ∈ bucket ret k) : x ∈ bucket (procChange w ret c) k := by
  unfold procChange
  split
  · exact hx
  split
  · exact hx
  apply mem_bucket_addChange
  split
  · exact mem_bucket_addChange _ _ _ _ _ hx
  · exact hx

theorem mem_bucket_foldl (w : Bool) (cs : List Change) (acc : Buckets) (k x : String)
    (hx : x ∈ bucket acc k) : x ∈ bucket (List.foldl (procChange w) acc cs) k := by
  induction cs generalizing acc with
  | nil => exact hx
  | cons c rest ih => exact ih _ (mem_bucket_procChange w acc c k x hx)

end DvcData

namespace DvcData

theorem hasKey_removeKey_ne (ret : Buckets) (k k' : String) (h : k' ≠ k) :
    hasKey (removeKey ret k) k' = hasKey ret k' := by
  induction ret with
  | nil => simp [removeKey, hasKey]
  | cons hd rest ih =>
    obtain ⟨a, v⟩ := hd
    simp only [removeKey]
    by_cases h1 : a = k
    · have h2 : ¬ a = k' := fun hh => h (hh.symm.trans h1)
      have h3 : ¬ k = k' := fun hh => h hh.symm
      simp [hasKey, h1, h2, h3, ih]
    · simp [hasKey, h1, ih]

theorem oldHashMissing_iff (c : Change) :
    oldHashMissing c = true ↔
      ∃ e, c.old = some e ∧ ∃ h, e.hash_info = some h ∧ e.odbExists h = false := by
  cases ho : c.old with
  | none => simp [oldHashMissing, ho]
  | some e =>
    cases hh : e.hash_info with
    | none => simp [oldHashMissing, ho, hh]
    | some h => simp [oldHashMissing, ho, hh]

theorem nic_foldl (cs : List Change) (acc : Buckets) (p : String)
    (hp : p ∈ bucket (List.foldl (procChange true) acc cs) "not_in_cache") :
    p ∈ bucket acc "not_in_cache" ∨
      ∃ c ∈ cs, _adapt_path c = p ∧ oldHashMissing c = true ∧
        p ∈ bucket (List.foldl (procChange true) acc cs) (_adapt_typ c.typ) := by
  induction cs generalizing acc with
  | nil => exact Or.inl hp
  | cons c rest ih =>
    simp only [List.foldl_cons] at hp
    rcases ih (procChange true acc c) hp with h1 | ⟨c', hc', hpath, hmiss, hmem⟩
    · by_cases hs1 : suppressedUnchanged c = true
      · left; simpa [procChange, hs1] using h1
      · by_cases hs2 : suppressedUnknown c = true
        · left; simpa [procChange, hs1, hs2] using h1
        · by_cases hm : oldHashMissing c = true
          · have hb : bucket (procChange true acc c) "not_in_cache"
                = bucket acc "not_in_cache" ++ [_adapt_path c] := by
              simp [procChange, hs1, hs2, hm, bucket_addChange, adapt_typ_ne_nic c.typ]
            rw [hb] at h1
            rcases List.mem_append.mp h1 with h2 | h2
            · exact Or.inl h2
            · have hpe : p = _adapt_path c := by simpa using h2
              right
              refine ⟨c, List.mem_cons_self c rest, hpe.symm, hm, ?_⟩
              simp only [List.foldl_cons]
              apply mem_bucket_foldl
              have hb2 : bucket (procChange true acc c) (_adapt_typ c.typ)
                  = bucket (addChange acc "not_in_cache" (_adapt_path c)) (_adapt_typ c.typ)
                      ++ [_adapt_path c] := by
                simp [procChange, hs1, hs2, hm, bucket_addChange]
              rw [hb2, hpe]
              exact List.mem_append_right _ (List.mem_singleton.mpr rfl)
          · have hb : bucket (procChange true acc c) "not_in_cache"
                = bucket acc "not_in_cache" := by
              simp [procChange, hs1, hs2, hm, bucket_addChange, adapt_typ_ne_nic c.typ]
            rw [hb] at h1
            exact Or.inl h1
    · right
      exact ⟨c', List.mem_cons_of_mem c hc', hpath, hmiss, by simpa [List.foldl_cons] using hmem⟩

theorem vals_ne_nil_addChange (ret : Buckets) (t p : String)
    (h : ∀ pr ∈ ret, pr.2 ≠ []) : ∀ pr ∈ addChange ret t p, pr.2 ≠ [] := by
  induction ret with
  | nil =>
    intro pr hpr
    simp only [addChange, List.mem_singleton] at hpr
    subst hpr
    simp
  | cons hd rest ih =>
    obtain ⟨a, v⟩ := hd
    intro pr hpr
    simp only [addChange] at hpr
    by_cases h1 : a = t
    · rw [if_pos h1] at hpr
      rcases List.mem_cons.mp hpr with h2 | h2
      · subst h2; simp
      · exact h pr (List.mem_cons_of_mem _ h2)
    · rw [if_neg h1] at hpr
      rcases List.mem_cons.mp hpr with h2 | h2
      · subst h2; exact h (a, v) (List.mem_cons_self _ _)
      · exact ih (fun q hq => h q (List.mem_cons_of_mem _ hq)) pr h2

theorem vals_ne_nil_procChange (w : Bool) (ret : Buckets) (c : Change)
    (h : ∀ pr ∈ ret, pr.2 ≠ []) : ∀ pr ∈ procChange w ret c, pr.2 ≠ [] := by
  unfold procChange
  split
  · exact h
  split
  · exact h
  apply vals_ne_nil_addChange
  split
  · exact vals_ne_nil_addChange _ _ _ h
  · exact h

theorem vals_ne_nil_foldl (w : Bool) (cs : List Change) (acc : Buckets)
    (h : ∀ pr ∈ acc, pr.2 ≠ []) :
    ∀ pr ∈ List.foldl (procChange w) acc cs, pr.2 ≠ [] := by
  induction cs generalizing acc with
  | nil => exact h
  | cons c rest ih => exact ih _ (vals_ne_nil_procChange w acc c h)

theorem hasKey_nic_procChange_false (ret : Buckets) (c : Change) :
    hasKey (procChange false ret c) "not_in_cache" = hasKey ret "not_in_cache" := by
  unfold procChange
  split
  · rfl
  split
  · rfl
  simp only [Bool.false_and, Bool.false_eq_true, if_false]
  exact hasKey_addChange_ne _ _ _ _ (adapt_typ_ne_nic c.typ)

theorem hasKey_nic_foldl_false (cs : List Change) (acc : Buckets) :
    hasKey (List.foldl (procChange false) acc cs) "not_in_cache"
      = hasKey acc "not_in_cache" := by
  induction cs generalizing acc with
  | nil => rfl
  | cons c rest ih => rw [List.foldl_cons, ih, hasKey_nic_procChange_false]

theorem hasKey_nic_diff_false (cs : List Change) :
    hasKey (_diff cs false) "not_in_cache" = false := by
  rw [_diff, hasKey_nic_foldl_false]
  rfl

theorem procChange_selfRecord (acc : Buckets) (ke : List String × Entry) :
    procChange false acc
        { key := ke.1, typ := .unchanged, old := some ke.2, new := some ke.2 } =
      unchangedStep acc ke := by
  cases hh : ke.2.hash_info with
  | none =>
    simp [procChange, suppressedUnchanged, suppressedUnchanged.metaHash, hh, unchangedStep]
  | some h =>
    simp [procChange, suppressedUnchanged, suppressedUnchanged.metaHash, suppressedUnknown,
      hh, unchangedStep, _adapt_typ, entryPath]

theorem diffEqual_foldl (s : Snapshot) (acc : Buckets) :
    List.foldl (procChange false) acc (diffPrimEqual s) =
      List.foldl unchangedStep acc s := by
  induction s generalizing acc with
  | nil => rfl
  | cons ke rest ih =>
    simp only [diffPrimEqual, List.map_cons, List.foldl_cons]
    rw [procChange_selfRecord]
    exact ih (unchangedStep acc ke)

theorem bucket_unchangedFold (s : Snapshot) (acc : Buckets) (k : String) :
    bucket (List.foldl unchangedStep acc s) k =
      if k = "unchanged"
      then bucket acc k ++ (s.filter (fun ke => ke.2.hash_info.isSome)).map entryPath
      else bucket acc k := by
  induction s generalizing acc with
  | nil => simp
  | cons ke rest ih =>
    simp only [List.foldl_cons, ih]
    by_cases hh : ke.2.hash_info.isSome
    · by_cases hk : k = "unchanged"
      · subst hk
        simp [unchangedStep, hh, bucket_addChange, List.filter_cons, List.append_assoc]
      · simp [unchangedStep, hh, bucket_addChange, hk, List.filter_cons]
    · simp only [unchangedStep, Bool.not_eq_true] at hh ⊢
      simp [hh, List.filter_cons]

theorem hasKey_unchangedFold (s : Snapshot) (acc : Buckets) (k : String)
    (hk : k ≠ "unchanged") :
    hasKey (List.foldl unchangedStep acc s) k = hasKey acc k := by
  induction s generalizing acc with
  | nil => rfl
  | cons ke rest ih =>
    simp only [List.foldl_cons, ih]
    by_cases hh : ke.2.hash_info.isSome
    · simp [unchangedStep, hh, hasKey_addChange_ne _ _ _ _ hk]
    · simp only [unchangedStep, Bool.not_eq_true] at hh ⊢
      simp [hh]

theorem mem_setInter (a b : List String) (x : String) :
    x ∈ setInter a b ↔ x ∈ a ∧ x ∈ b := by
  simp [setInter, List.mem_filter, List.elem_iff]

end DvcData

namespace DvcData

/-- C2: for every change sequence classified with `with_missing=true`, every
path in the `not_in_cache` bucket comes from a change record whose `old`
entry exists and carries a content hash that the object store reports as not
existing, and that path is also emitted into the record's normal change-kind
bucket (which is never named "not_in_cache"). -/
theorem C2_not_in_cache_sound (changes : List Change) (p : String)
    (hp : p ∈ bucket (_diff changes true) "not_in_cache") :
    ∃ c ∈ changes, _adapt_path c = p ∧
      (∃ e, c.old = some e ∧ ∃ h, e.hash_info = some h ∧ e.odbExists h = false) ∧
      _adapt_typ c.typ ≠ "not_in_cache" ∧
      p ∈ bucket (_diff changes true) (_adapt_typ c.typ) := by
  have h0 := nic_foldl changes [] p hp
  rcases h0 with h | ⟨c, hc, hpath, hmiss, hmem⟩
  · simp [bucket] at h
  · exact ⟨c, hc, hpath, (oldHashMissing_iff c).mp hmiss,
      fun hh => adapt_typ_ne_nic c.typ hh.symm, hmem⟩

/-- Witness for C2 at a concrete change record with a missing old hash. -/
theorem C2_witness :
    ("f" ∈ bucket (_diff [changeMissing] true) "not_in_cache") ∧
    ∃ c ∈ [changeMissing], _adapt_path c = "f" ∧
      (∃ e, c.old = some e ∧ ∃ h, e.hash_info = some h ∧ e.odbExists h = false) ∧
      _adapt_typ c.typ ≠ "not_in_cache" ∧
      "f" ∈ bucket (_diff [changeMissing] true) (_adapt_typ c.typ) :=
  ⟨by decide, C2_not_in_cache_sound [changeMissing] "f" (by decide)⟩

/-- C9: every list stored in the classifier's mapping is non-empty, for every
change sequence and either flag setting. -/
theorem C9_buckets_nonempty (changes : List Change) (w : Bool)
    (pr : String × List String) (hpr : pr ∈ _diff changes w) : pr.2 ≠ [] :=
  vals_ne_nil_foldl w changes [] (by simp) pr hpr

/-- Witness for C9 at a concrete change sequence. -/
theorem C9_witness :
    (("modified", ["f"]) ∈ _diff [changeMissing] false) ∧ (["f"] ≠ ([] : List String)) :=
  ⟨by decide, C9_buckets_nonempty [changeMissing] false ("modified", ["f"]) (by decide)⟩

/-- C3 as stated is false on the code: for the pair of equal snapshots built
from `snapHashless` (one hash-less entry), the `unchanged` bucket does not
contain the entry's path — suppression rule 1 drops it. -/
theorem C3_counterexample :
    ¬ (∀ ke ∈ snapHashless,
        entryPath ke ∈ bucket (_diff (diffPrimEqual snapHashless) false) "unchanged") := by
  decide

/-- C3 (amended): for equal snapshots whose rendered entry paths are
pairwise distinct, classification yields an empty result for every kind
except `unchanged`; the `unchanged` bucket holds the path of every entry
carrying a content hash exactly once, while hash-less entries are
suppressed. -/
theorem C3_equal_snapshots_unchanged (s : Snapshot)
    (hnd : (s.map entryPath).Nodup) :
    (∀ k, k ≠ "unchanged" →
      hasKey (_diff (diffPrimEqual s) false) k = false ∧
      bucket (_diff (diffPrimEqual s) false) k = []) ∧
    (∀ ke ∈ s,
      (ke.2.hash_info.isSome = true →
        (bucket (_diff (diffPrimEqual s) false) "unchanged").count (entryPath ke) = 1) ∧
      (ke.2.hash_info.isSome = false →
        entryPath ke ∉ bucket (_diff (diffPrimEqual s) false) "unchanged")) := by
  have hfold : _diff (diffPrimEqual s) false = List.foldl unchangedStep [] s := by
    rw [_diff, diffEqual_foldl]
  have hbucket : ∀ k, bucket (_diff (diffPrimEqual s) false) k =
      if k = "unchanged"
      then (s.filter (fun ke => ke.2.hash_info.isSome)).map entryPath
      else [] := by
    intro k
    rw [hfold, bucket_unchangedFold]
    by_cases hk : k = "unchanged" <;> simp [hk, bucket]
  have hnd2 : ((s.filter (fun ke => ke.2.hash_info.isSome)).map entryPath).Nodup :=
    List.Nodup.sublist (List.Sublist.map entryPath (List.filter_sublist s)) hnd
  constructor
  · intro k hk
    refine ⟨?_, ?_⟩
    · rw [hfold, hasKey_unchangedFold _ _ _ hk]; rfl
    · rw [hbucket k, if_neg hk]
  · intro ke hke
    constructor
    · intro hsome
      rw [hbucket "unchanged", if_pos rfl]
      exact List.count_eq_one_of_mem hnd2
        (List.mem_map_of_mem entryPath (List.mem_filter.mpr ⟨hke, hsome⟩))
    · intro hnone
      rw [hbucket "unchanged", if_pos rfl]
      intro hmem
      rcases List.mem_map.mp hmem with ⟨ke', hke', hpe⟩
      have hke's : ke' ∈ s := (List.mem_filter.mp hke').1
      have heq : ke' = ke := List.inj_on_of_nodup_map hnd hke's hke hpe
      have : ke.2.hash_info.isSome = true := heq ▸ (List.mem_filter.mp hke').2
      rw [hnone] at this
      exact Bool.false_ne_true this

/-- Witness for C3's amended theorem at a concrete hashed snapshot. -/
theorem C3_witness :
    (snapHashed.map entryPath).Nodup ∧
    bucket (_diff (diffPrimEqual snapHashed) false) "modified" = [] ∧
    (bucket (_diff (diffPrimEqual snapHashed) false) "unchanged").count
      (entryPath (["f"], { hash_info := some "h", meta := some ⟨false⟩, odb := ["h"] })) = 1 :=
  ⟨by decide,
    ((C3_equal_snapshots_unchanged snapHashed (by decide)).1 "modified" (by decide)).2,
    ((C3_equal_snapshots_unchanged snapHashed (by decide)).2
      (["f"], { hash_info := some "h", meta := some ⟨false⟩, odb := ["h"] })
      (by decide)).1 (by decide)⟩

end DvcData

namespace DvcData

theorem status_ok_gi (root_dir scm_root cwd : String) (u cd : Buckets) (scm : SCMHandle)
    (pol : String) (gi : GitInfo) (hg : _git_info scm pol = .ok gi) :
    status root_dir scm_root cwd u (.ok cd) scm pol =
      .ok { not_in_cache := bucket u "not_in_cache"
            committed := removeKey cd "unchanged"
            uncommitted := removeKey (removeKey u "not_in_cache") "unchanged"
            untracked := _transform_git_paths_to_dvc root_dir scm_root cwd
              (gi.untracked.getD [])
            unchanged := setInter (bucket (removeKey u "not_in_cache") "unchanged")
              (bucket cd "unchanged")
            git := gi } := by
  unfold status
  rw [hg]

theorem status_ok_gi_err (root_dir scm_root cwd : String) (u cd : Buckets)
    (scm : SCMHandle) (pol : String) (e : PyErr) (hg : _git_info scm pol = .error e) :
    status root_dir scm_root cwd u (.ok cd) scm pol = .error e := by
  unfold status
  rw [hg]

theorem status_recover_gi (root_dir scm_root cwd : String) (u : Buckets) (scm : SCMHandle)
    (pol : String) (gi : GitInfo) (e : PyErr)
    (he : e = PyErr.scmError ∨ e = PyErr.noSCMError) (hg : _git_info scm pol = .ok gi) :
    status root_dir scm_root cwd u (.error e) scm pol =
      .ok { not_in_cache := bucket u "not_in_cache"
            committed := []
            uncommitted := removeKey (removeKey u "not_in_cache") "unchanged"
            untracked := _transform_git_paths_to_dvc root_dir scm_root cwd
              (gi.untracked.getD [])
            unchanged := bucket (removeKey u "not_in_cache") "unchanged"
            git := gi } := by
  rcases he with rfl | rfl <;> (unfold status; rw [hg])

theorem status_recover_gi_err (root_dir scm_root cwd : String) (u : Buckets)
    (scm : SCMHandle) (pol : String) (e e' : PyErr)
    (he : e = PyErr.scmError ∨ e = PyErr.noSCMError) (hg : _git_info scm pol = .error e') :
    status root_dir scm_root cwd u (.error e) scm pol = .error e' := by
  rcases he with rfl | rfl <;> (unfold status; rw [hg])

theorem status_fatal (root_dir scm_root cwd : String) (u : Buckets) (scm : SCMHandle)
    (pol : String) (e : PyErr) (h1 : e ≠ PyErr.scmError) (h2 : e ≠ PyErr.noSCMError) :
    status root_dir scm_root cwd u (.error e) scm pol = .error e := by
  cases e with
  | scmError => exact absurd rfl h1
  | noSCMError => exact absurd rfl h2
  | unboundLocalError => rfl
  | otherError => rfl

theorem bucket_after_nic_removal (u : Buckets) :
    bucket (removeKey u "not_in_cache") "unchanged" = bucket u "unchanged" := by
  rw [bucket_removeKey]
  simp

/-- C1: in the final Status Report, `unchanged` is, as a set, the
intersection of the uncommitted diff's unchanged bucket with the committed
diff's unchanged bucket; when the committed diff failed with the
no-SCM-backend or no-commits error, it is the uncommitted unchanged bucket
alone. -/
theorem C1_unchanged_intersection (root_dir scm_root cwd : String) (u cd : Buckets)
    (scm : SCMHandle) (pol : String) (x : String) (r rf : StatusR) (e : PyErr) :
    (status root_dir scm_root cwd u (.ok cd) scm pol = .ok r →
      (x ∈ r.unchanged ↔ x ∈ bucket u "unchanged" ∧ x ∈ bucket cd "unchanged")) ∧
    ((e = PyErr.scmError ∨ e = PyErr.noSCMError) →
      status root_dir scm_root cwd u (.error e) scm pol = .ok rf →
      (x ∈ rf.unchanged ↔ x ∈ bucket u "unchanged")) := by
  constructor
  · intro h
    cases hg : _git_info scm pol with
    | error e' =>
      rw [status_ok_gi_err _ _ _ _ _ _ _ _ hg] at h
      exact absurd h (by simp)
    | ok gi =>
      rw [status_ok_gi _ _ _ _ _ _ _ _ hg] at h
      have hr := Except.ok.inj h
      rw [← hr]
      show x ∈ setInter (bucket (removeKey u "not_in_cache") "unchanged")
          (bucket cd "unchanged") ↔ _
      rw [mem_setInter, bucket_after_nic_removal]
  · intro he h
    cases hg : _git_info scm pol with
    | error e' =>
      rw [status_recover_gi_err _ _ _ _ _ _ _ _ he hg] at h
      exact absurd h (by simp)
    | ok gi =>
      rw [status_recover_gi _ _ _ _ _ _ _ _ he hg] at h
      have hr := Except.ok.inj h
      rw [← hr]
      show x ∈ bucket (removeKey u "not_in_cache") "unchanged" ↔ _
      rw [bucket_after_nic_removal]

/-- Witness for C1 at concrete diffs: intersection of ["a", "b"] and ["b", "c"]. -/
theorem C1_witness :
    (status "/r" "/r" "/r" [("unchanged", ["a", "b"])] (.ok [("unchanged", ["b", "c"])])
        .noSCM "no" =
      .ok (StatusR.mk [] [] [] [] ["b"] emptyGitInfo)) ∧
    ("b" ∈ (StatusR.mk [] [] [] [] ["b"] emptyGitInfo).unchanged ↔
      "b" ∈ bucket [("unchanged", ["a", "b"])] "unchanged" ∧
      "b" ∈ bucket [("unchanged", ["b", "c"])] "unchanged") :=
  ⟨by rfl,
    (C1_unchanged_intersection "/r" "/r" "/r" [("unchanged", ["a", "b"])]
      [("unchanged", ["b", "c"])] .noSCM "no" "b"
      (StatusR.mk [] [] [] [] ["b"] emptyGitInfo)
      (StatusR.mk [] [] [] [] ["b"] emptyGitInfo) PyErr.scmError).1 (by rfl)⟩

end DvcData

namespace DvcData

/-- C4: when the committed diff fails with the no-SCM-backend or no-commits
error, `status` does not raise and the report's `committed` field is the
empty mapping; any other failure of the committed diff propagates unchanged. -/
theorem C4_committed_failure_recovery (root_dir scm_root cwd : String) (u : Buckets)
    (scm : SCMHandle) (pol : String) (gi : GitInfo) (e : PyErr)
    (hg : _git_info scm pol = .ok gi) :
    ((e = PyErr.scmError ∨ e = PyErr.noSCMError) →
      ∃ r, status root_dir scm_root cwd u (.error e) scm pol = .ok r ∧ r.committed = []) ∧
    (e ≠ PyErr.scmError → e ≠ PyErr.noSCMError →
      status root_dir scm_root cwd u (.error e) scm pol = .error e) := by
  constructor
  · intro he
    exact ⟨_, status_recover_gi root_dir scm_root cwd u scm pol gi e he hg, rfl⟩
  · intro h1 h2
    exact status_fatal root_dir scm_root cwd u scm pol e h1 h2

/-- Witness for C4 at a concrete recoverable and a concrete fatal error. -/
theorem C4_witness :
    (_git_info .noSCM "no" = .ok emptyGitInfo) ∧
    (∃ r, status "/r" "/r" "/r" [] (.error PyErr.scmError) .noSCM "no" = .ok r ∧
      r.committed = []) ∧
    status "/r" "/r" "/r" [] (.error PyErr.otherError) .noSCM "no" =
      .error PyErr.otherError :=
  ⟨rfl,
    (C4_committed_failure_recovery "/r" "/r" "/r" [] .noSCM "no" emptyGitInfo
      PyErr.scmError rfl).1 (Or.inl rfl),
    (C4_committed_failure_recovery "/r" "/r" "/r" [] .noSCM "no" emptyGitInfo
      PyErr.otherError rfl).2 (by decide) (by decide)⟩

/-- C8: a Status Report's `committed` and `uncommitted` mappings never
contain the keys "unchanged" or "not_in_cache": both are removed from the
uncommitted diff, the committed diff is classified without missing-cache
detection and has its `unchanged` bucket removed when it succeeded, and a
failed committed diff is the empty mapping. -/
theorem C8_no_internal_keys (root_dir scm_root cwd : String) (u : Buckets)
    (changes : List Change) (e : PyErr) (scm : SCMHandle) (pol : String) (r rf : StatusR) :
    (status root_dir scm_root cwd u (.ok (_diff changes false)) scm pol = .ok r →
      hasKey r.committed "unchanged" = false ∧ hasKey r.committed "not_in_cache" = false ∧
      hasKey r.uncommitted "unchanged" = false ∧
      hasKey r.uncommitted "not_in_cache" = false) ∧
    (status root_dir scm_root cwd u (.error e) scm pol = .ok rf →
      hasKey rf.committed "unchanged" = false ∧ hasKey rf.committed "not_in_cache" = false ∧
      hasKey rf.uncommitted "unchanged" = false ∧
      hasKey rf.uncommitted "not_in_cache" = false) := by
  have huncommitted :
      hasKey (removeKey (removeKey u "not_in_cache") "unchanged") "unchanged" = false ∧
      hasKey (removeKey (removeKey u "not_in_cache") "unchanged") "not_in_cache" = false := by
    refine ⟨hasKey_removeKey_self _ _, ?_⟩
    rw [hasKey_removeKey_ne _ _ _ (by decide)]
    exact hasKey_removeKey_self _ _
  constructor
  · intro h
    cases hg : _git_info scm pol with
    | error e' =>
      rw [status_ok_gi_err _ _ _ _ _ _ _ _ hg] at h
      exact absurd h (by simp)
    | ok gi =>
      rw [status_ok_gi _ _ _ _ _ _ _ _ hg] at h
      have hr := Except.ok.inj h
      rw [← hr]
      refine ⟨hasKey_removeKey_self _ _, ?_, huncommitted.1, huncommitted.2⟩
      show hasKey (removeKey (_diff changes false) "unchanged") "not_in_cache" = false
      rw [hasKey_removeKey_ne _ _ _ (by decide)]
      exact hasKey_nic_diff_false changes
  · intro h
    cases e with
    | scmError =>
      cases hg : _git_info scm pol with
      | error e' =>
        rw [status_recover_gi_err _ _ _ _ _ _ _ _ (Or.inl rfl) hg] at h
        exact absurd h (by simp)
      | ok gi =>
        rw [status_recover_gi _ _ _ _ _ _ _ _ (Or.inl rfl) hg] at h
        have hr := Except.ok.inj h
        rw [← hr]
        exact ⟨rfl, rfl, huncommitted.1, huncommitted.2⟩
    | noSCMError =>
      cases hg : _git_info scm pol with
      | error e' =>
        rw [status_recover_gi_err _ _ _ _ _ _ _ _ (Or.inr rfl) hg] at h
        exact absurd h (by simp)
      | ok gi =>
        rw [status_recover_gi _ _ _ _ _ _ _ _ (Or.inr rfl) hg] at h
        have hr := Except.ok.inj h
        rw [← hr]
        exact ⟨rfl, rfl, huncommitted.1, huncommitted.2⟩
    | unboundLocalError =>
      rw [status_fatal _ _ _ _ _ _ _ (by decide) (by decide)] at h
      exact absurd h (by simp)
    | otherError =>
      rw [status_fatal _ _ _ _ _ _ _ (by decide) (by decide)] at h
      exact absurd h (by simp)

/-- Witness for C8 at a concrete status computation. -/
theorem C8_witness :
    (status "/r" "/r" "/r" [("unchanged", ["a"]), ("not_in_cache", ["b"])]
        (.ok (_diff [changeMissing] false)) .noSCM "no" =
      .ok (StatusR.mk ["b"] [("modified", ["f"])] [] [] [] emptyGitInfo)) ∧
    (hasKey (StatusR.mk ["b"] [("modified", ["f"])] [] [] [] emptyGitInfo).committed
        "unchanged" = false ∧
      hasKey (StatusR.mk ["b"] [("modified", ["f"])] [] [] [] emptyGitInfo).committed
        "not_in_cache" = false ∧
      hasKey (StatusR.mk ["b"] [("modified", ["f"])] [] [] [] emptyGitInfo).uncommitted
        "unchanged" = false ∧
      hasKey (StatusR.mk ["b"] [("modified", ["f"])] [] [] [] emptyGitInfo).uncommitted
        "not_in_cache" = false) :=
  ⟨by rfl,
    (C8_no_internal_keys "/r" "/r" "/r" [("unchanged", ["a"]), ("not_in_cache", ["b"])]
      [changeMissing] PyErr.scmError .noSCM "no"
      (StatusR.mk ["b"] [("modified", ["f"])] [] [] [] emptyGitInfo)
      (StatusR.mk ["b"] [("modified", ["f"])] [] [] [] emptyGitInfo)).1 (by rfl)⟩

end DvcData

namespace DvcData

/-- C5: with a configured backend, `_git_info` derives `is_empty` from
`get_rev`; the SCM error class (the no-commits failure) is the only error
converted into `is_empty=true`, every other failure of revision resolution
propagates, and a successful resolution yields `is_empty=false`. -/
theorem C5_git_info_is_empty (b : GitBackend) (pol : String) (e : PyErr) (rev : String) :
    (b.get_rev = .error PyErr.scmError →
      ∃ gi, _git_info (.git b) pol = .ok gi ∧ gi.is_empty = some true) ∧
    (b.get_rev = .error e → e ≠ PyErr.scmError → _git_info (.git b) pol = .error e) ∧
    (b.get_rev = .ok rev →
      ∃ gi, _git_info (.git b) pol = .ok gi ∧ gi.is_empty = some false) := by
  obtain ⟨grev, gstat⟩ := b
  refine ⟨?_, ?_, ?_⟩
  · intro h
    have h' : grev = Except.error PyErr.scmError := h
    subst h'
    exact ⟨_, rfl, rfl⟩
  · intro h hne
    cases e with
    | scmError => exact absurd rfl hne
    | noSCMError =>
      have h' : grev = Except.error PyErr.noSCMError := h
      subst h'
      rfl
    | unboundLocalError =>
      have h' : grev = Except.error PyErr.unboundLocalError := h
      subst h'
      rfl
    | otherError =>
      have h' : grev = Except.error PyErr.otherError := h
      subst h'
      rfl
  · intro h
    have h' : grev = Except.ok rev := h
    subst h'
    exact ⟨_, rfl, rfl⟩

/-- Witness for C5 at a backend whose `get_rev` reports the no-commits error. -/
theorem C5_witness :
    (emptyBackend.get_rev = .error PyErr.scmError) ∧
    ∃ gi, _git_info (.git emptyBackend) "all" = .ok gi ∧ gi.is_empty = some true :=
  ⟨rfl, (C5_git_info_is_empty emptyBackend "all" PyErr.otherError "r").1 rfl⟩

/-- C6: when the revision iterator yields no concrete (non-"workspace")
state, the Commit Comparer raises `UnboundLocalError`, an error distinct
from the SCM error classes, and `status` propagates it instead of recovering
an empty committed diff. -/
theorem C6_no_concrete_revision (revs : List String) (changesOf : String → List Change)
    (hall : ∀ rv ∈ revs, rv = "workspace")
    (root_dir scm_root cwd : String) (u : Buckets) (scm : SCMHandle) (pol : String) :
    _diff_head_to_index revs changesOf = .error PyErr.unboundLocalError ∧
    PyErr.unboundLocalError ≠ PyErr.scmError ∧
    PyErr.unboundLocalError ≠ PyErr.noSCMError ∧
    status root_dir scm_root cwd u (_diff_head_to_index revs changesOf) scm pol =
      .error PyErr.unboundLocalError := by
  have hfold : ∀ l : List String, (∀ rv ∈ l, rv = "workspace") →
      List.foldl (fun acc rev => if rev = "workspace" then acc else some rev)
        (none : Option String) l = none := by
    intro l
    induction l with
    | nil => intro _; rfl
    | cons a rest ih =>
      intro hl
      have ha : a = "workspace" := hl a (List.mem_cons_self _ _)
      simp only [List.foldl_cons, ha, if_pos rfl]
      exact ih (fun rv hrv => hl rv (List.mem_cons_of_mem _ hrv))
  have h1 : _diff_head_to_index revs changesOf = .error PyErr.unboundLocalError := by
    unfold _diff_head_to_index
    rw [hfold revs hall]
  refine ⟨h1, by decide, by decide, ?_⟩
  rw [h1]
  exact status_fatal _ _ _ _ _ _ _ (by decide) (by decide)

/-- Witness for C6 at a brancher that only yields the workspace marker. -/
theorem C6_witness :
    (∀ rv ∈ ["workspace"], rv = "workspace") ∧
    _diff_head_to_index ["workspace"] noChanges = .error PyErr.unboundLocalError ∧
    status "/r" "/r" "/r" [] (_diff_head_to_index ["workspace"] noChanges) .noSCM "no" =
      .error PyErr.unboundLocalError :=
  ⟨by decide,
    (C6_no_concrete_revision ["workspace"] noChanges (by decide)
      "/r" "/r" "/r" [] .noSCM "no").1,
    (C6_no_concrete_revision ["workspace"] noChanges (by decide)
      "/r" "/r" "/r" [] .noSCM "no").2.2.2⟩

/-- C7: for a data-repo root `a/b/sub` below the SCM root and current
directory `sub/inner`, the SCM-reported list ["a/b/sub/x.txt"] translates to
["../x.txt"]; outside paths are dropped; and in general the translator
coincides with the spec's four-step description (strip the non-trivial
prefix discarding non-matching paths, then re-express relative to the
current directory). -/
theorem C7_path_translator :
    _transform_git_paths_to_dvc "/g/a/b/sub" "/g" "/g/a/b/sub/inner" ["a/b/sub/x.txt"]
        = ["../x.txt"] ∧
    _transform_git_paths_to_dvc "/g/a/b/sub" "/g" "/g/a/b/sub/inner"
        ["a/b/sub/x.txt", "q/y.txt"] = ["../x.txt"] ∧
    ∀ root_dir scm_root cwd files,
      _transform_git_paths_to_dvc root_dir scm_root cwd files =
        specPathTranslate root_dir scm_root cwd files := by
  refine ⟨by decide, by decide, ?_⟩
  intro root scmr cwd files
  simp only [_transform_git_paths_to_dvc, specPathTranslate]
  by_cases h1 : rstripSlash (relpath root scmr) = "." ∨ rstripSlash (relpath root scmr) = ""
  · have h2 : ¬ (rstripSlash (relpath root scmr) ≠ "." ∧
        rstripSlash (relpath root scmr) ≠ "") := by tauto
    rw [if_neg h2, if_pos h1]
  · have h2 : rstripSlash (relpath root scmr) ≠ "." ∧
        rstripSlash (relpath root scmr) ≠ "" := by tauto
    rw [if_pos h2, if_neg h1]

end DvcData

namespace DvcImpUrl

/-- C10: whenever `to_remote` is combined with `no_exec` or `no_download`,
or `remote` is given without `to_remote`, `imp_url` raises
`InvalidArgumentError` after only the path-resolution helpers have run —
before any stage is created, executed, or dumped. -/
theorem C10_imp_url_invalid_args (a : ImpArgs)
    (h : ((a.to_remote && (a.no_exec || a.no_download))
        || (!a.to_remote && truthyStr a.remote)) = true) :
    (imp_url a).2 = some ImpErr.invalidArgument ∧
    (imp_url a).1 = [ImpAction.resolveOutput, ImpAction.resolvePaths] ∧
    ImpAction.stageCreate ∉ (imp_url a).1 ∧
    ImpAction.stageRun ∉ (imp_url a).1 ∧
    ImpAction.transferToRemote ∉ (imp_url a).1 ∧
    ImpAction.ignoreOuts ∉ (imp_url a).1 ∧
    ImpAction.stageDump ∉ (imp_url a).1 := by
  have himp : imp_url a = ([ImpAction.resolveOutput, ImpAction.resolvePaths],
      some ImpErr.invalidArgument) := by
    have h' : (a.to_remote && (a.no_exec || a.no_download)) = true ∨
        (!a.to_remote && truthyStr a.remote) = true := by
      rcases Bool.or_eq_true_iff.mp h with h1 | h2
      · exact Or.inl h1
      · exact Or.inr h2
    rcases h' with h1 | h2
    · unfold imp_url
      rw [if_pos h1]
    · have h2' := h2
      rw [Bool.and_eq_true] at h2'
      have ht : a.to_remote = false := by
        have := h2'.1
        simpa using this
      have hc1 : ¬ ((a.to_remote && (a.no_exec || a.no_download)) = true) := by
        rw [ht]
        simp
      unfold imp_url
      rw [if_neg hc1, if_pos h2]
  rw [himp]
  exact ⟨rfl, rfl, by decide, by decide, by decide, by decide, by decide⟩

/-- Witness for C10 at the rejected `to_remote`+`no_exec` combination. -/
theorem C10_witness :
    (((badArgs.to_remote && (badArgs.no_exec || badArgs.no_download))
      || (!badArgs.to_remote && truthyStr badArgs.remote)) = true) ∧
    (imp_url badArgs).2 = some ImpErr.invalidArgument ∧
    ImpAction.stageCreate ∉ (imp_url badArgs).1 ∧
    ImpAction.stageDump ∉ (imp_url badArgs).1 :=
  ⟨by decide,
    (C10_imp_url_invalid_args badArgs (by decide)).1,
    (C10_imp_url_invalid_args badArgs (by decide)).2.2.1,
    (C10_imp_url_invalid_args badArgs (by decide)).2.2.2.2.2.2⟩

end DvcImpUrl
